import Mathlib

/-!
Verification of the span-matcher utilities of the wynton-scripts repository.

The embedding models the Python functions of
`ELELAB_RosettaDDGPprediction/Setup/gen_pdb_span.py`
(`extract_chain_sequence`, `hamming_distance`, `find_matches`) and the
per-chain sliding-window loop of `find_sequence_matches` in
`MutateX/generate_mutatex_position_list.py`.

Python semantics that matter here and are modelled explicitly:
* `range(len(sequence) - qlen + 1)` is computed with integer subtraction,
  so it is empty whenever `len(sequence) < qlen`; `windowCount` mirrors
  this with an `Int` subtraction followed by `toNat`.
* list indexing `xs[i]` may raise `IndexError`; `pyGet` returns `Option`,
  with the Python negative-index convention (`xs[-1]` is the last element).
  A loop whose body can raise is a `foldlM` into `Option`.
* slicing `sequence[i : i+qlen]` with `0 ≤ i` never raises and clamps to
  the end of the list: it is `(sequence.drop i).take qlen`.
* `sum(a != b for a, b in zip(s, t))` counts mismatching positions of the
  zipped (truncated to the shorter) lists.
-/

/-- Python list indexing `xs[i]`: negative indices count from the end,
out-of-range indices raise (here: `none`). -/
def pyGet {α : Type} (xs : List α) (i : Int) : Option α :=
  if i < 0 then
    if 0 ≤ i + xs.length then xs[(i + xs.length).toNat]? else none
  else
    xs[i.toNat]?

/-- Number of iterations of `for i in range(len(sequence) - qlen + 1)`:
Python computes the bound with integer subtraction, so a query longer
than the sequence gives an empty range. -/
def windowCount (slen qlen : Nat) : Nat :=
  ((slen : Int) - (qlen : Int) + 1).toNat

namespace GenPdbSpan

/-- A residue as seen by `extract_chain_sequence`: `res.id[0]` (hetero
flag), `res.id[1]` (residue number) and `res.resname`.  The PDB parsing
that produces these is an external collaborator. -/
structure Residue where
  het : String
  resnum : Int
  resname : String

/-- The reversed `protein_letters_3to1` table with upper-cased keys, as
built at module load time from the external `Bio.Data.IUPACData` data
(the 20 standard amino acids). -/
def three_to_one : List (String × Char) :=
  [("ALA", 'A'), ("ARG", 'R'), ("ASN", 'N'), ("ASP", 'D'), ("CYS", 'C'),
   ("GLN", 'Q'), ("GLU", 'E'), ("GLY", 'G'), ("HIS", 'H'), ("ILE", 'I'),
   ("LEU", 'L'), ("LYS", 'K'), ("MET", 'M'), ("PHE", 'F'), ("PRO", 'P'),
   ("SER", 'S'), ("THR", 'T'), ("TRP", 'W'), ("TYR", 'Y'), ("VAL", 'V')]

/-- The one-letter code appended for a retained residue: the looked-up
code when `resname.upper()` is in the table, the sentinel `'X'`
otherwise. -/
def residueCode (res : Residue) : Char :=
  match three_to_one.lookup res.resname.toUpper with
  | some c => c
  | none => 'X'

/-- Model of `extract_chain_sequence(chain)`: walk the chain, skip residues whose
hetero flag is not `' '`, and append one code and one residue number per
retained residue. -/
def extract_chain_sequence (chain : List Residue) : List Char × List Int :=
  chain.foldl
    (fun acc res =>
      if res.het ≠ " " then acc
      else (acc.1 ++ [residueCode res], acc.2 ++ [res.resnum]))
    ([], [])

/-- Model of `hamming_distance(seq1, seq2)`: the number of mismatched characters,
`sum(a != b for a, b in zip(seq1, seq2))`. -/
def hamming_distance (seq1 seq2 : List Char) : Nat :=
  (seq1.zip seq2).countP (fun p => p.1 != p.2)

/-- The loop body of `find_matches` at window start `i`: compare the
query with the window, and on a hit read `res_nums[i]` and
`res_nums[i + qlen - 1]` (each may raise) and append the triple. -/
def matchStep (sequence : List Char) (res_nums : List Int) (query : List Char)
    (max_mismatches : Int) (acc : List (Int × Int × Nat)) (i : Nat) :
    Option (List (Int × Int × Nat)) :=
  let window := (sequence.drop i).take query.length
  let mismatches := hamming_distance query window
  if (mismatches : Int) ≤ max_mismatches then
    (pyGet res_nums (i : Int)).bind fun s =>
      (pyGet res_nums ((i : Int) + query.length - 1)).map fun e =>
        acc ++ [(s, e, mismatches)]
  else
    some acc

/-- Model of `find_matches(sequence, res_nums, query, max_mismatches)`: the
sliding-window scan; `none` models an uncaught `IndexError`. -/
def find_matches (sequence : List Char) (res_nums : List Int) (query : List Char)
    (max_mismatches : Int) : Option (List (Int × Int × Nat)) :=
  (List.range (windowCount sequence.length query.length)).foldlM
    (matchStep sequence res_nums query max_mismatches) []

/-- The Hamming distance of the window starting at `i` to the query. -/
def hammingAt (sequence query : List Char) (i : Nat) : Nat :=
  hamming_distance query ((sequence.drop i).take query.length)

/-- The match the spec prescribes for a qualifying window start `i`:
start and end residue numbers `res_nums[i]` and
`res_nums[i + len(query) - 1]` together with the mismatch count. -/
def specMatch (sequence : List Char) (res_nums : List Int) (query : List Char)
    (i : Nat) : Int × Int × Nat :=
  (res_nums.getD i 0, res_nums.getD (i + query.length - 1) 0,
    hammingAt sequence query i)

/-- The result described by the spec: for every window start `i` from 0
to `len(sequence) - len(query)` inclusive whose Hamming distance to the
query is within the budget, the prescribed match, in scan order. -/
def specMatches (sequence : List Char) (res_nums : List Int) (query : List Char)
    (max_mismatches : Int) : List (Int × Int × Nat) :=
  (List.range (windowCount sequence.length query.length)).filterMap fun i =>
    if (hammingAt sequence query i : Int) ≤ max_mismatches then
      some (specMatch sequence res_nums query i)
    else none

/-- The window start indices that qualify, in scan order. -/
def qualifyingStarts (sequence query : List Char) (max_mismatches : Int) :
    List Nat :=
  (List.range (windowCount sequence.length query.length)).filter fun i =>
    (hammingAt sequence query i : Int) ≤ max_mismatches

end GenPdbSpan

namespace MutateX

/-- The `Match` namedtuple of `generate_mutatex_position_list.py`. -/
structure Match where
  chain_id : String
  start_resnum : Int
  end_resnum : Int
  mismatches : Nat
  sequence : String

/-- Model of `hamming_distance` as duplicated in
`generate_mutatex_position_list.py`. -/
def hamming_distance (seq1 seq2 : List Char) : Nat :=
  (seq1.zip seq2).countP (fun p => p.1 != p.2)

/-- The loop body of the per-chain scan in `find_sequence_matches`. -/
def chainScanStep (chain_id : String) (sequence : List Char) (res_nums : List Int)
    (query : List Char) (max_mismatches : Int) (acc : List Match) (i : Nat) :
    Option (List Match) :=
  let window := (sequence.drop i).take query.length
  let mismatches := hamming_distance query window
  if (mismatches : Int) ≤ max_mismatches then
    (pyGet res_nums (i : Int)).bind fun start_res =>
      (pyGet res_nums ((i : Int) + query.length - 1)).map fun end_res =>
        acc ++ [⟨chain_id, start_res, end_res, mismatches, String.mk window⟩]
  else
    some acc

/-- The per-chain sliding-window loop inside `find_sequence_matches`
(lines 55–64): same scan as `find_matches`, additionally recording the
chain id and the matched window text. -/
def find_sequence_matches_chain (chain_id : String) (sequence : List Char)
    (res_nums : List Int) (query : List Char) (max_mismatches : Int) :
    Option (List Match) :=
  (List.range (windowCount sequence.length query.length)).foldlM
    (chainScanStep chain_id sequence res_nums query max_mismatches) []

end MutateX

/-! ### General lemmas about `Option`-valued folds -/

/-- A fold whose every step appends the (possibly absent) element
prescribed by `g` succeeds and returns the accumulated `filterMap`. -/
theorem foldlM_eq_append {α β : Type} (f : List β → α → Option (List β))
    (g : α → Option β) :
    ∀ (is : List α), (∀ i ∈ is, ∀ acc, f acc i = some (acc ++ (g i).toList)) →
      ∀ acc, is.foldlM f acc = some (acc ++ is.filterMap g) := by
  intro is
  induction is with
  | nil => intro _ acc; simp
  | cons i is ih =>
    intro h acc
    have hstep := h i (List.mem_cons_self i is) acc
    rw [List.foldlM_cons, hstep]
    have := ih (fun j hj => h j (List.mem_cons_of_mem i hj)) (acc ++ (g i).toList)
    simp only [Option.bind_eq_bind, Option.some_bind] at *
    rw [this, List.filterMap_cons]
    cases hg : g i <;> simp [hg, List.append_assoc]

/-- A fold over `Option` fails as soon as one of its elements makes the
step fail whatever the accumulator. -/
theorem foldlM_none_of_mem {α β : Type} (f : β → α → Option β) (is : List α)
    (i : α) (hi : i ∈ is) (hf : ∀ acc, f acc i = none) :
    ∀ acc, is.foldlM f acc = none := by
  induction is with
  | nil => cases hi
  | cons j js ih =>
    intro acc
    rw [List.foldlM_cons]
    rcases List.mem_cons.mp hi with rfl | hmem
    · rw [hf acc]; rfl
    · cases hj : f acc j
      · rfl
      · simp only [Option.bind_eq_bind, Option.some_bind]
        exact ih hmem _

/-- Two `Option`-valued folds whose steps agree up to a projection of
the accumulator produce results that agree up to that projection. -/
theorem foldlM_map_rel {α β γ : Type} (g : List β → α → Option (List β))
    (f : List γ → α → Option (List γ)) (proj : β → γ) (is : List α)
    (h : ∀ i ∈ is, ∀ acc : List β,
      (g acc i).map (List.map proj) = f (acc.map proj) i) :
    ∀ acc : List β,
      (is.foldlM g acc).map (List.map proj) = is.foldlM f (acc.map proj) := by
  induction is with
  | nil => intro acc; simp
  | cons i is ih =>
    intro acc
    rw [List.foldlM_cons, List.foldlM_cons]
    cases hg : g acc i with
    | none =>
      have := h i (List.mem_cons_self i is) acc
      rw [hg] at this
      simp only [Option.map_none'] at this
      rw [← this]
      rfl
    | some a =>
      have hstep := h i (List.mem_cons_self i is) acc
      rw [hg] at hstep
      simp only [Option.map_some'] at hstep
      rw [← hstep]
      simp only [Option.bind_eq_bind, Option.some_bind]
      exact ih (fun j hj => h j (List.mem_cons_of_mem i hj)) a

/-- Rewriting `filterMap` of an if-then-some-else-none function as `map` of the
corresponding `filter`. -/
theorem filterMap_ite_eq_map_filter {α β : Type} (p : α → Prop) [DecidablePred p]
    (f : α → β) : ∀ l : List α,
      (l.filterMap fun i => if p i then some (f i) else none) =
        (l.filter fun i => p i).map f := by
  intro l
  induction l with
  | nil => rfl
  | cons a l ih =>
    rw [List.filterMap_cons, List.filter_cons]
    by_cases h : p a
    · simp [h, ih]
    · simp [h, ih]

namespace GenPdbSpan

/-! ### Basic facts about `pyGet` and `hamming_distance` -/

theorem pyGet_natCast {α : Type} (xs : List α) (i : Nat) :
    pyGet xs (i : Int) = xs[i]? := by
  simp [pyGet]

theorem pyGet_eq_getD {α : Type} [Inhabited α] (xs : List α) (d : α) (i : Nat)
    (h : i < xs.length) : pyGet xs (i : Int) = some (xs.getD i d) := by
  rw [pyGet_natCast, List.getElem?_eq_getElem h, List.getD_eq_getElem]

/-- Since `zip` truncates to the shorter list, the mismatch count never
exceeds the query length. -/
theorem hamming_distance_le_left (seq1 seq2 : List Char) :
    hamming_distance seq1 seq2 ≤ seq1.length :=
  le_trans (List.countP_le_length _) (by simp [List.length_zip])

theorem hamming_distance_cons (a b : Char) (s t : List Char) :
    hamming_distance (a :: s) (b :: t) =
      hamming_distance s t + if a != b then 1 else 0 := by
  simp [hamming_distance, List.countP_cons]

/-- On equal-length lists, Hamming distance zero is equality. -/
theorem hamming_distance_eq_zero_iff :
    ∀ (s t : List Char), s.length = t.length →
      (hamming_distance s t = 0 ↔ s = t) := by
  intro s
  induction s with
  | nil =>
    intro t h
    have : t = [] := List.eq_nil_of_length_eq_zero h.symm
    subst this
    simp [hamming_distance]
  | cons a s ih =>
    intro t h
    cases t with
    | nil => simp at h
    | cons b t =>
      have hlen : s.length = t.length := by simpa using h
      rw [hamming_distance_cons]
      by_cases hab : a = b
      · subst hab
        simp [ih t hlen]
      · have hne : (a != b) = true := by simp [hab]
        simp [hne, hab]

/-! ### The scan computes the match list of the spec -/

theorem matchStep_eq_spec (sequence : List Char) (res_nums : List Int)
    (query : List Char) (m : Int) (hlen : res_nums.length = sequence.length)
    (hq : query ≠ []) (i : Nat)
    (hi : i < windowCount sequence.length query.length)
    (acc : List (Int × Int × Nat)) :
    matchStep sequence res_nums query m acc i =
      some (acc ++ (if (hammingAt sequence query i : Int) ≤ m then
        some (specMatch sequence res_nums query i) else none).toList) := by
  have hq1 : 1 ≤ query.length := List.length_pos.mpr hq
  unfold windowCount at hi
  have hb : i < res_nums.length ∧ i + query.length - 1 < res_nums.length := by
    omega
  have hcast : ((i + query.length - 1 : Nat) : Int) =
      (i : Int) + query.length - 1 := by
    omega
  unfold matchStep
  by_cases hm : (hammingAt sequence query i : Int) ≤ m
  · rw [if_pos (by exact hm), if_pos hm]
    rw [pyGet_eq_getD res_nums 0 i hb.1, ← hcast, pyGet_eq_getD res_nums 0 _ hb.2]
    rfl
  · rw [if_neg (by exact hm), if_neg hm]
    simp

/-- With equal-length inputs and a non-empty query, `find_matches`
returns normally and its value is exactly the match list of the spec. -/
theorem find_matches_eq_spec (sequence : List Char) (res_nums : List Int)
    (query : List Char) (m : Int) (hlen : res_nums.length = sequence.length)
    (hq : query ≠ []) :
    find_matches sequence res_nums query m =
      some (specMatches sequence res_nums query m) := by
  unfold find_matches specMatches
  have := foldlM_eq_append (matchStep sequence res_nums query m)
    (fun i => if (hammingAt sequence query i : Int) ≤ m then
      some (specMatch sequence res_nums query i) else none)
    (List.range (windowCount sequence.length query.length))
    (fun i hi acc => matchStep_eq_spec sequence res_nums query m hlen hq i
      (List.mem_range.mp hi) acc) []
  rw [this]
  simp

theorem windowCount_eq (slen qlen : Nat) (h : qlen ≤ slen) :
    windowCount slen qlen = slen - qlen + 1 := by
  unfold windowCount
  omega

/-- The match list of the spec is the image of the qualifying start indices. -/
theorem specMatches_eq_map_qualifying (sequence : List Char) (res_nums : List Int)
    (query : List Char) (m : Int) :
    specMatches sequence res_nums query m =
      (qualifyingStarts sequence query m).map (specMatch sequence res_nums query) := by
  unfold specMatches qualifyingStarts
  exact filterMap_ite_eq_map_filter
    (fun i => (hammingAt sequence query i : Int) ≤ m)
    (specMatch sequence res_nums query) _

theorem length_specMatches (sequence : List Char) (res_nums : List Int)
    (query : List Char) (m : Int) :
    (specMatches sequence res_nums query m).length =
      (List.range (windowCount sequence.length query.length)).countP
        (fun i => (hammingAt sequence query i : Int) ≤ m) := by
  rw [specMatches_eq_map_qualifying, List.length_map]
  unfold qualifyingStarts
  exact (List.countP_eq_length_filter _ _).symm

/-- The loop of `extract_chain_sequence`, characterised for an arbitrary
starting accumulator. -/
theorem extract_loop (chain : List Residue) :
    ∀ acc : List Char × List Int,
      chain.foldl
        (fun acc res =>
          if res.het ≠ " " then acc
          else (acc.1 ++ [residueCode res], acc.2 ++ [res.resnum])) acc =
      (acc.1 ++ (chain.filter fun r => r.het == " ").map residueCode,
       acc.2 ++ (chain.filter fun r => r.het == " ").map Residue.resnum) := by
  induction chain with
  | nil => intro acc; simp
  | cons r rs ih =>
    intro acc
    rw [List.foldl_cons]
    by_cases h : r.het = " "
    · rw [if_neg (by simp [h]), ih, List.filter_cons_of_pos (by simp [h])]
      simp [List.append_assoc]
    · rw [if_pos h, ih, List.filter_cons_of_neg (by simp [h])]

/-- The function `extract_chain_sequence` keeps exactly the non-hetero residues, one
code and one residue number each, in chain order. -/
theorem extract_chain_sequence_eq (chain : List Residue) :
    extract_chain_sequence chain =
      ((chain.filter fun r => r.het == " ").map residueCode,
       (chain.filter fun r => r.het == " ").map Residue.resnum) := by
  unfold extract_chain_sequence
  rw [extract_loop]
  simp

/-- With an empty query and a non-negative budget, every window
qualifies and the step at start index `len(sequence)` reads past the
end of `res_nums`. -/
theorem matchStep_nil_query_fails (sequence : List Char) (res_nums : List Int)
    (m : Int) (hlen : res_nums.length = sequence.length) (hm : 0 ≤ m)
    (acc : List (Int × Int × Nat)) :
    matchStep sequence res_nums [] m acc sequence.length = none := by
  unfold matchStep
  rw [if_pos]
  · rw [pyGet_natCast, List.getElem?_eq_none (by omega)]
    rfl
  · simpa [hamming_distance] using hm

end GenPdbSpan

/-- The projection dropping the extra fields of a MutateX match. -/
def mxTriple (t : MutateX.Match) : Int × Int × Nat :=
  (t.start_resnum, t.end_resnum, t.mismatches)

/-- The two scan bodies agree step by step, up to `mxTriple`. -/
theorem chainScanStep_rel (chain_id : String) (sequence : List Char)
    (res_nums : List Int) (query : List Char) (m : Int) (i : Nat)
    (acc : List MutateX.Match) :
    (MutateX.chainScanStep chain_id sequence res_nums query m acc i).map
        (List.map mxTriple) =
      GenPdbSpan.matchStep sequence res_nums query m (acc.map mxTriple) i := by
  unfold MutateX.chainScanStep GenPdbSpan.matchStep
  have hh : MutateX.hamming_distance = GenPdbSpan.hamming_distance := rfl
  rw [hh]
  by_cases hm :
      ((GenPdbSpan.hamming_distance query ((sequence.drop i).take query.length) :
        Nat) : Int) ≤ m
  · rw [if_pos hm, if_pos hm]
    cases pyGet res_nums (i : Int) with
    | none => rfl
    | some s =>
      cases pyGet res_nums ((i : Int) + query.length - 1) with
      | none => rfl
      | some e => simp [mxTriple]
  · rw [if_neg hm, if_neg hm]
    rfl

/-- The per-chain loop of `find_sequence_matches` computes exactly the
triples of `find_matches`, in the same order, for all inputs — success
and failure alike. -/
theorem chain_scan_eq_find_matches (chain_id : String) (sequence : List Char)
    (res_nums : List Int) (query : List Char) (m : Int) :
    (MutateX.find_sequence_matches_chain chain_id sequence res_nums query m).map
        (List.map mxTriple) =
      GenPdbSpan.find_matches sequence res_nums query m := by
  unfold MutateX.find_sequence_matches_chain GenPdbSpan.find_matches
  have := foldlM_map_rel
    (MutateX.chainScanStep chain_id sequence res_nums query m)
    (GenPdbSpan.matchStep sequence res_nums query m) mxTriple
    (List.range (windowCount sequence.length query.length))
    (fun i _ acc => chainScanStep_rel chain_id sequence res_nums query m i acc) []
  simpa using this

/-- A `filterMap` only looks at the members of the list. -/
theorem filterMap_congr_mem {α β : Type} :
    ∀ (l : List α) (f g : α → Option β),
      (∀ a ∈ l, f a = g a) → l.filterMap f = l.filterMap g := by
  intro l
  induction l with
  | nil => intro f g _; rfl
  | cons a l ih =>
    intro f g h
    rw [List.filterMap_cons, List.filterMap_cons,
      h a (List.mem_cons_self a l), ih f g (fun b hb => h b (List.mem_cons_of_mem a hb))]

/-! ### The claims -/

/-- C1: for every equal-length pair (sequence, res_nums), non-empty
query and non-negative max_mismatches, `find_matches` returns exactly
the triples `(res_nums[i], res_nums[i + len(query) - 1], d_i)` for the
window starts `i` from 0 to `len(sequence) - len(query)` inclusive with
Hamming distance `d_i ≤ max_mismatches` — no qualifying window omitted
and no other match emitted (the returned list is `specMatches`). -/
theorem c1_find_matches_returns_spec_matches (sequence : List Char)
    (res_nums : List Int) (query : List Char) (m : Int)
    (hlen : res_nums.length = sequence.length) (hq : query ≠ [])
    (_hm : 0 ≤ m) :
    GenPdbSpan.find_matches sequence res_nums query m =
      some (GenPdbSpan.specMatches sequence res_nums query m) :=
  GenPdbSpan.find_matches_eq_spec sequence res_nums query m hlen hq

theorem c1_witness :
    ([31, 32, 33, 34, 35, 36, 37, 38] : List Int).length =
      "GFTFSRAS".toList.length ∧
    "GFTF".toList ≠ [] ∧ (0 : Int) ≤ 1 ∧
    GenPdbSpan.find_matches "GFTFSRAS".toList
        [31, 32, 33, 34, 35, 36, 37, 38] "GFTF".toList 1 =
      some (GenPdbSpan.specMatches "GFTFSRAS".toList
        [31, 32, 33, 34, 35, 36, 37, 38] "GFTF".toList 1) :=
  ⟨by decide, by decide, by decide,
    c1_find_matches_returns_spec_matches _ _ _ _ (by decide) (by decide)
      (by decide)⟩

/-- C2: with the mismatch budget equal to the query length, every
window qualifies, so the result has exactly
`len(sequence) - len(query) + 1` matches. -/
theorem c2_full_budget_counts_all_windows (sequence : List Char)
    (res_nums : List Int) (query : List Char)
    (hlen : res_nums.length = sequence.length) (hq : query ≠ [])
    (hqs : query.length ≤ sequence.length) :
    ∃ L, GenPdbSpan.find_matches sequence res_nums query (query.length : Int) =
        some L ∧ L.length = sequence.length - query.length + 1 := by
  refine ⟨_, GenPdbSpan.find_matches_eq_spec sequence res_nums query _ hlen hq, ?_⟩
  rw [GenPdbSpan.length_specMatches]
  have hall : ∀ i ∈ List.range (windowCount sequence.length query.length),
      decide ((GenPdbSpan.hammingAt sequence query i : Int) ≤
        (query.length : Int)) = true := by
    intro i _
    simp only [decide_eq_true_eq]
    exact_mod_cast GenPdbSpan.hamming_distance_le_left query _
  rw [List.countP_eq_length_filter, List.filter_eq_self.mpr hall,
    List.length_range, GenPdbSpan.windowCount_eq _ _ hqs]

theorem c2_witness :
    ([31, 32, 33, 34, 35, 36, 37, 38] : List Int).length =
      "GFTFSRAS".toList.length ∧
    "GFTF".toList ≠ [] ∧ "GFTF".toList.length ≤ "GFTFSRAS".toList.length ∧
    ∃ L, GenPdbSpan.find_matches "GFTFSRAS".toList
        [31, 32, 33, 34, 35, 36, 37, 38] "GFTF".toList
        ("GFTF".toList.length : Int) = some L ∧
      L.length = "GFTFSRAS".toList.length - "GFTF".toList.length + 1 :=
  ⟨by decide, by decide, by decide,
    c2_full_budget_counts_all_windows _ _ _ (by decide) (by decide) (by decide)⟩

/-- C3: on well-formed inputs `find_matches` returns normally — every
index it computes is in bounds, no exception is raised, and the empty
list is its only no-match signal. -/
theorem c3_find_matches_total (sequence : List Char) (res_nums : List Int)
    (query : List Char) (m : Int)
    (hlen : res_nums.length = sequence.length) (hq : query ≠ [])
    (_hm : 0 ≤ m) :
    ∃ L, GenPdbSpan.find_matches sequence res_nums query m = some L :=
  ⟨_, GenPdbSpan.find_matches_eq_spec sequence res_nums query m hlen hq⟩

theorem c3_witness :
    ([5, 9] : List Int).length = "AG".toList.length ∧ "G".toList ≠ [] ∧
    (0 : Int) ≤ 0 ∧
    ∃ L, GenPdbSpan.find_matches "AG".toList [5, 9] "G".toList 0 = some L :=
  ⟨by decide, by decide, by decide,
    c3_find_matches_total _ _ _ _ (by decide) (by decide) (by decide)⟩

/-- C4: the result is the image, in order, of the qualifying window
start indices, which are strictly increasing (left-to-right scan
order) and contain every qualifying start — overlapping and nested
windows are all reported, with no deduplication or suppression. -/
theorem c4_matches_in_scan_order (sequence : List Char) (res_nums : List Int)
    (query : List Char) (m : Int)
    (hlen : res_nums.length = sequence.length) (hq : query ≠ [])
    (_hm : 0 ≤ m) :
    GenPdbSpan.find_matches sequence res_nums query m =
      some ((GenPdbSpan.qualifyingStarts sequence query m).map
        (GenPdbSpan.specMatch sequence res_nums query)) ∧
    (GenPdbSpan.qualifyingStarts sequence query m).Pairwise (· < ·) ∧
    ∀ i, i ∈ GenPdbSpan.qualifyingStarts sequence query m ↔
      i < windowCount sequence.length query.length ∧
        (GenPdbSpan.hammingAt sequence query i : Int) ≤ m := by
  refine ⟨?_, ?_, ?_⟩
  · rw [GenPdbSpan.find_matches_eq_spec _ _ _ _ hlen hq,
      GenPdbSpan.specMatches_eq_map_qualifying]
  · exact (List.pairwise_lt_range _).sublist (List.filter_sublist _)
  · intro i
    unfold GenPdbSpan.qualifyingStarts
    rw [List.mem_filter, List.mem_range]
    simp

theorem c4_witness :
    ([31, 32, 33, 34, 35, 36, 37, 38] : List Int).length =
      "GFTFSRAS".toList.length ∧
    "GFTF".toList ≠ [] ∧ (0 : Int) ≤ 1 ∧
    (GenPdbSpan.find_matches "GFTFSRAS".toList
        [31, 32, 33, 34, 35, 36, 37, 38] "GFTF".toList 1 =
      some ((GenPdbSpan.qualifyingStarts "GFTFSRAS".toList "GFTF".toList 1).map
        (GenPdbSpan.specMatch "GFTFSRAS".toList
          [31, 32, 33, 34, 35, 36, 37, 38] "GFTF".toList)) ∧
    (GenPdbSpan.qualifyingStarts "GFTFSRAS".toList "GFTF".toList 1).Pairwise
      (· < ·) ∧
    ∀ i, i ∈ GenPdbSpan.qualifyingStarts "GFTFSRAS".toList "GFTF".toList 1 ↔
      i < windowCount "GFTFSRAS".toList.length "GFTF".toList.length ∧
        (GenPdbSpan.hammingAt "GFTFSRAS".toList "GFTF".toList i : Int) ≤ 1) :=
  ⟨by decide, by decide, by decide,
    c4_matches_in_scan_order _ _ _ _ (by decide) (by decide) (by decide)⟩

/-- C5: increasing the mismatch budget never decreases the number of
matches. -/
theorem c5_budget_monotonic (sequence : List Char) (res_nums : List Int)
    (query : List Char) (m m' : Int)
    (hlen : res_nums.length = sequence.length) (hq : query ≠ [])
    (_hm : 0 ≤ m) (hmm : m ≤ m') :
    ∃ L L',
      GenPdbSpan.find_matches sequence res_nums query m = some L ∧
      GenPdbSpan.find_matches sequence res_nums query m' = some L' ∧
      L.length ≤ L'.length := by
  refine ⟨_, _, GenPdbSpan.find_matches_eq_spec _ _ _ m hlen hq,
    GenPdbSpan.find_matches_eq_spec _ _ _ m' hlen hq, ?_⟩
  rw [GenPdbSpan.length_specMatches, GenPdbSpan.length_specMatches]
  refine List.countP_mono_left fun i _ h => ?_
  simp only [decide_eq_true_eq] at *
  exact le_trans h hmm

theorem c5_witness :
    ([31, 32, 33, 34, 35, 36, 37, 38] : List Int).length =
      "GFTFSRAS".toList.length ∧
    "GFTF".toList ≠ [] ∧ (0 : Int) ≤ 0 ∧ (0 : Int) ≤ 1 ∧
    ∃ L L',
      GenPdbSpan.find_matches "GFTFSRAS".toList
        [31, 32, 33, 34, 35, 36, 37, 38] "GFTF".toList 0 = some L ∧
      GenPdbSpan.find_matches "GFTFSRAS".toList
        [31, 32, 33, 34, 35, 36, 37, 38] "GFTF".toList 1 = some L' ∧
      L.length ≤ L'.length :=
  ⟨by decide, by decide, by decide, by decide,
    c5_budget_monotonic _ _ _ _ _ (by decide) (by decide) (by decide) (by decide)⟩

/-- C6: with budget 0 the result is exactly the list of exact
occurrences of the query, each with mismatch count 0; in particular on
sequence "GFTFSRAS" with residue numbers 31..38 and query "GFTF" the
result is the single match (31, 34, 0). -/
theorem c6_zero_budget_exact (sequence : List Char) (res_nums : List Int)
    (query : List Char) (hlen : res_nums.length = sequence.length)
    (hq : query ≠ []) :
    GenPdbSpan.find_matches sequence res_nums query 0 =
      some ((List.range (windowCount sequence.length query.length)).filterMap
        fun i =>
          if (sequence.drop i).take query.length = query then
            some (res_nums.getD i 0, res_nums.getD (i + query.length - 1) 0, 0)
          else none) ∧
    GenPdbSpan.find_matches "GFTFSRAS".toList
        [31, 32, 33, 34, 35, 36, 37, 38] "GFTF".toList 0 =
      some [(31, 34, 0)] := by
  constructor
  · rw [GenPdbSpan.find_matches_eq_spec _ _ _ 0 hlen hq]
    unfold GenPdbSpan.specMatches
    congr 1
    apply filterMap_congr_mem
    intro i hi
    have hi' := List.mem_range.mp hi
    have hq1 : 1 ≤ query.length := List.length_pos.mpr hq
    have hle : i + query.length ≤ sequence.length := by
      unfold windowCount at hi'
      omega
    have hwl : ((sequence.drop i).take query.length).length = query.length := by
      rw [List.length_take, List.length_drop]
      omega
    have hiff : GenPdbSpan.hammingAt sequence query i = 0 ↔
        (sequence.drop i).take query.length = query := by
      unfold GenPdbSpan.hammingAt
      rw [GenPdbSpan.hamming_distance_eq_zero_iff query _ hwl.symm]
      exact eq_comm
    by_cases hw : (sequence.drop i).take query.length = query
    · have h0 : GenPdbSpan.hammingAt sequence query i = 0 := hiff.mpr hw
      rw [if_pos (by rw [h0]; norm_num), if_pos hw]
      unfold GenPdbSpan.specMatch
      rw [h0]
    · rw [if_neg (fun hc => hw (hiff.mp (by omega))), if_neg hw]
  · decide

theorem c6_witness :
    ([31, 32, 33, 34, 35, 36, 37, 38] : List Int).length =
      "GFTFSRAS".toList.length ∧
    "GFTF".toList ≠ [] ∧
    (GenPdbSpan.find_matches "GFTFSRAS".toList
        [31, 32, 33, 34, 35, 36, 37, 38] "GFTF".toList 0 =
      some ((List.range (windowCount "GFTFSRAS".toList.length
          "GFTF".toList.length)).filterMap
        fun i =>
          if ("GFTFSRAS".toList.drop i).take "GFTF".toList.length =
              "GFTF".toList then
            some (([31, 32, 33, 34, 35, 36, 37, 38] : List Int).getD i 0,
              ([31, 32, 33, 34, 35, 36, 37, 38] : List Int).getD
                (i + "GFTF".toList.length - 1) 0, 0)
          else none) ∧
    GenPdbSpan.find_matches "GFTFSRAS".toList
        [31, 32, 33, 34, 35, 36, 37, 38] "GFTF".toList 0 =
      some [(31, 34, 0)]) :=
  ⟨by decide, by decide,
    c6_zero_budget_exact _ _ _ (by decide) (by decide)⟩

/-- C7: a query longer than the sequence leaves no window to examine:
the result is the empty list and no exception is raised. -/
theorem c7_long_query_empty_result (sequence : List Char) (res_nums : List Int)
    (query : List Char) (m : Int) (h : sequence.length < query.length) :
    GenPdbSpan.find_matches sequence res_nums query m = some [] := by
  unfold GenPdbSpan.find_matches
  have h0 : windowCount sequence.length query.length = 0 := by
    unfold windowCount
    omega
  rw [h0]
  rfl

theorem c7_witness :
    "GF".toList.length < "GFTF".toList.length ∧
    GenPdbSpan.find_matches "GF".toList [31, 32] "GFTF".toList 0 = some [] :=
  ⟨by decide, c7_long_query_empty_result _ _ _ _ (by decide)⟩

/-- C8: `extract_chain_sequence` appends exactly one one-letter code
and one residue number per retained (non-heteroatom) residue, at the
same index, so the two returned lists have equal length and matching
index correspondence. -/
theorem c8_extract_parallel_lists (chain : List GenPdbSpan.Residue) :
    (GenPdbSpan.extract_chain_sequence chain).1.length =
      (GenPdbSpan.extract_chain_sequence chain).2.length ∧
    (GenPdbSpan.extract_chain_sequence chain).1 =
      (chain.filter fun r => r.het == " ").map GenPdbSpan.residueCode ∧
    (GenPdbSpan.extract_chain_sequence chain).2 =
      (chain.filter fun r => r.het == " ").map GenPdbSpan.Residue.resnum := by
  rw [GenPdbSpan.extract_chain_sequence_eq]
  simp

/-- C9: with an empty query the scan reaches window start index
`len(sequence)` (index 0 on an empty list) and `res_nums[i]` is out of
bounds, so `find_matches` does not return normally: the non-empty-query
precondition is necessary. -/
theorem c9_empty_query_raises (sequence : List Char) (res_nums : List Int)
    (m : Int) (hlen : res_nums.length = sequence.length) (hm : 0 ≤ m) :
    GenPdbSpan.find_matches sequence res_nums [] m = none := by
  unfold GenPdbSpan.find_matches
  apply foldlM_none_of_mem _ _ sequence.length
  · refine List.mem_range.mpr ?_
    simp only [List.length_nil]
    unfold windowCount
    omega
  · exact GenPdbSpan.matchStep_nil_query_fails sequence res_nums m hlen hm

theorem c9_witness :
    ([5, 9] : List Int).length = "AG".toList.length ∧ (0 : Int) ≤ 0 ∧
    GenPdbSpan.find_matches "AG".toList [5, 9] [] 0 = none :=
  ⟨by decide, by decide,
    c9_empty_query_raises _ _ _ (by decide) (by decide)⟩

/-- C10: the duplicated matchers are equivalent: on a per-chain
equal-length (sequence, res_nums), any uppercase query no longer than
the sequence and any non-negative budget, the per-chain loop of
`find_sequence_matches` produces exactly the `(start_resnum,
end_resnum, mismatches)` triples of `find_matches`, in the same
order. -/
theorem c10_matchers_equivalent (chain_id : String) (sequence : List Char)
    (res_nums : List Int) (query : List Char) (m : Int)
    (_hlen : res_nums.length = sequence.length)
    (_hup : ∀ c ∈ query, c.toUpper = c)
    (_hqs : query.length ≤ sequence.length) (_hm : 0 ≤ m) :
    (MutateX.find_sequence_matches_chain chain_id sequence res_nums query m).map
        (List.map mxTriple) =
      GenPdbSpan.find_matches sequence res_nums query m :=
  chain_scan_eq_find_matches chain_id sequence res_nums query m

theorem c10_witness :
    ([31, 32, 33, 34, 35, 36, 37, 38] : List Int).length =
      "GFTFSRAS".toList.length ∧
    (∀ c ∈ "GFTF".toList, c.toUpper = c) ∧
    "GFTF".toList.length ≤ "GFTFSRAS".toList.length ∧ (0 : Int) ≤ 1 ∧
    (MutateX.find_sequence_matches_chain "A" "GFTFSRAS".toList
        [31, 32, 33, 34, 35, 36, 37, 38] "GFTF".toList 1).map
        (List.map mxTriple) =
      GenPdbSpan.find_matches "GFTFSRAS".toList
        [31, 32, 33, 34, 35, 36, 37, 38] "GFTF".toList 1 :=
  ⟨by decide, by decide, by decide, by decide,
    c10_matchers_equivalent "A" _ _ _ _ (by decide) (by decide) (by decide)
      (by decide)⟩
